import Mathlib

/-!
Shallow embedding of the worker-mirror service of the cloudflare-manager
repository (src/src/services/WorkersService.ts) and proofs about it.

Modelling conventions:
- The SQLite database is a pair of lists (accounts table, workers table);
  a SELECT ... WHERE id = ? followed by .get is List.find? (first match),
  UPDATE ... WHERE id = ? maps over all rows with that id, DELETE ...
  WHERE ... filters rows out.  ORDER BY account_id, name is a sort by the
  lexicographic key; we realise it with List.insertionSort.
- SQLite CURRENT_TIMESTAMP values are opaque strings; each operation takes
  the current timestamp as an explicit argument "now".
- Outbound CloudflareAPI calls are external I/O; each operation takes their
  outcomes as explicit arguments (Except String carries the thrown message).
- crypto.randomUUID is modelled by a generator indexed by the draw number.
- A thrown JS Error is modelled as Except.error of its message string.
-/

/-- A worker as reported by the provider's listWorkers call
(CloudflareAPI): fields id, etag?, created_on?, modified_on?. -/
structure CfWorker where
  id : String
  etag : Option String
  created_on : Option String
  modified_on : Option String
deriving DecidableEq, Repr

/-- WorkerRecord, the local mirror row (workers table), as in the
interface WorkerRecord of WorkersService.ts. -/
structure WorkerRecord where
  id : String
  accountId : String
  name : String
  subdomain : Option String
  url : Option String
  scriptHash : Option String
  createdOn : Option String
  modifiedOn : Option String
  lastSynced : String
deriving DecidableEq, Repr

/-- Account row (accounts table), as in models/types.ts via mapAccountRow. -/
structure Account where
  id : String
  name : String
  authType : String
  accountId : String
  apiToken : Option String
  authEmail : Option String
  authKey : Option String
  subdomain : Option String
  status : String
  lastCheck : Option String
  lastError : Option String
  createdAt : String
  updatedAt : String
deriving DecidableEq, Repr

/-- The database state: the accounts table and the workers table. -/
structure DB where
  accounts : List Account
  workers : List WorkerRecord
deriving DecidableEq, Repr

/-- JavaScript "x || null" applied to a nullable string field: undefined
and the empty string are falsy and become null. -/
def jsOrNull : Option String → Option String
  | none => none
  | some s => if s = "" then none else some s

/-- The worker url built at line 83 of WorkersService.ts. -/
def workerUrl (workerId subdomain : String) : String :=
  "https://" ++ workerId ++ "." ++ subdomain ++ ".workers.dev"

/-- Message of the error thrown when the account row is absent
(lines 55-57 of WorkersService.ts). -/
def accountNotFoundMsg (accountId : String) : String :=
  "Account " ++ accountId ++ " not found"

/-- Message wrapping any failure inside the try block of
syncAccountWorkers (line 104). -/
def syncFailMsg (accountId cause : String) : String :=
  "Failed to sync workers for account " ++ accountId ++ ": " ++ cause

/-- The row inserted for one fetched worker by the insert loop
(lines 81-94): a fresh opaque id, name taken from the provider id,
the account subdomain denormalised, the derived url, etag and provider
timestamps with the JavaScript falsy-to-null coercion, and last_synced
set to CURRENT_TIMESTAMP. -/
def insertedRow (accountId subdomain freshId now : String) (w : CfWorker) :
    WorkerRecord :=
  { id := freshId
    accountId := accountId
    name := w.id
    subdomain := some subdomain
    url := some (workerUrl w.id subdomain)
    scriptHash := jsOrNull w.etag
    createdOn := jsOrNull w.created_on
    modifiedOn := jsOrNull w.modified_on
    lastSynced := now }

/-- The rows produced by the insert loop over the fetched list, drawing a
fresh id from the generator at each iteration (crypto.randomUUID). -/
def insertedRows (accountId subdomain : String) (gen : Nat → String)
    (now : String) : Nat → List CfWorker → List WorkerRecord
  | _, [] => []
  | i, w :: ws =>
      insertedRow accountId subdomain (gen i) now w
        :: insertedRows accountId subdomain gen now (i + 1) ws

/-- DELETE FROM workers WHERE account_id = ? (line 68-69). -/
def deleteAccountWorkers (ws : List WorkerRecord) (accountId : String) :
    List WorkerRecord :=
  ws.filter (fun w => ¬ w.accountId = accountId)

/-- UPDATE accounts SET subdomain = ?, last_check = CURRENT_TIMESTAMP
WHERE id = ? (lines 99-100). -/
def updateAccountSync (accounts : List Account) (accountId subdomain now : String) :
    List Account :=
  accounts.map (fun a =>
    if a.id = accountId then
      { a with subdomain := some subdomain, lastCheck := some now }
    else a)

/-- syncAccountWorkers (lines 53-106 of WorkersService.ts).

Arguments beyond the database and account id model the external world:
fetch is the joint outcome of the awaited listWorkers and getSubdomain
calls (lines 63-66); insertFault injects a failure thrown during the
insert loop (some message) or lets it succeed (none); gen draws fresh
opaque ids; now is the CURRENT_TIMESTAMP value.

Control flow mirrored from the source: the account lookup failure (line 56)
is thrown outside the try block and is NOT wrapped; everything inside the
try is wrapped by syncFailMsg (line 104).  The DELETE at line 69 is a
separate autocommitted statement; only the insert loop at lines 80-97 runs
inside db.transaction, so a failure during insertion rolls the inserts
back while the delete stays committed.  On an empty fetched list the
function returns 0 at line 72 before the account row update at line 99,
so the account row is only updated on the non-empty path. -/
def syncAccountWorkers (db : DB) (accountId : String)
    (fetch : Except String (List CfWorker × String))
    (insertFault : Option String) (gen : Nat → String) (now : String) :
    DB × Except String Nat :=
  match db.accounts.find? (fun a => a.id = accountId) with
  | none => (db, Except.error (accountNotFoundMsg accountId))
  | some _ =>
    match fetch with
    | Except.error msg => (db, Except.error (syncFailMsg accountId msg))
    | Except.ok (workers, subdomain) =>
      let db1 : DB := { db with workers := deleteAccountWorkers db.workers accountId }
      if workers.length = 0 then
        (db1, Except.ok 0)
      else
        match insertFault with
        | some msg => (db1, Except.error (syncFailMsg accountId msg))
        | none =>
          let db2 : DB :=
            { db1 with
              workers := db1.workers ++ insertedRows accountId subdomain gen now 0 workers }
          let db3 : DB :=
            { db2 with
              accounts := updateAccountSync db2.accounts accountId subdomain now }
          (db3, Except.ok workers.length)

/-- A value of the result map of syncMultipleAccounts: a numeric count or
an error-message string. -/
def SyncValue := Nat ⊕ String

instance : DecidableEq SyncValue :=
  inferInstanceAs (DecidableEq (Nat ⊕ String))

instance {ε α : Type} [DecidableEq ε] [DecidableEq α] : DecidableEq (Except ε α) :=
  fun a b =>
    match a, b with
    | Except.ok x, Except.ok y =>
        if h : x = y then isTrue (by rw [h]) else isFalse (by simp [h])
    | Except.error x, Except.error y =>
        if h : x = y then isTrue (by rw [h]) else isFalse (by simp [h])
    | Except.ok _, Except.error _ => isFalse (by simp)
    | Except.error _, Except.ok _ => isFalse (by simp)

/-- JavaScript object property assignment on a string-keyed map kept as an
association list: overwrite in place when the key exists, append otherwise. -/
def setAssoc (m : List (String × SyncValue)) (k : String) (v : SyncValue) :
    List (String × SyncValue) :=
  if m.any (fun p => p.1 = k) then
    m.map (fun p => if p.1 = k then (k, v) else p)
  else
    m ++ [(k, v)]

/-- Lookup in the result map. -/
def lookupAssoc (m : List (String × SyncValue)) (k : String) : Option SyncValue :=
  (m.find? (fun p => p.1 = k)).map (fun p => p.2)

/-- The value recorded for one account by syncMultipleAccounts: the
returned count on success, the caught message prefixed with "Error: "
on failure (line 116). -/
def recordedValue (r : Except String Nat) : SyncValue :=
  match r with
  | Except.ok count => Sum.inl count
  | Except.error msg => Sum.inr ("Error: " ++ msg)

/-- One iteration of the syncMultipleAccounts loop (lines 111-118):
run the per-account sync on the threaded database and record its
outcome in the result map under the account's key. -/
def syncStep (fetch : String → Except String (List CfWorker × String))
    (insertFault : String → Option String)
    (gen : String → Nat → String) (now : String)
    (st : DB × List (String × SyncValue)) (accountId : String) :
    DB × List (String × SyncValue) :=
  let r := syncAccountWorkers st.1 accountId (fetch accountId)
      (insertFault accountId) (gen accountId) now
  (r.1, setAssoc st.2 accountId (recordedValue r.2))

/-- syncMultipleAccounts (lines 108-121 of WorkersService.ts): a strictly
sequential fold over the requested account ids, threading the database
through each per-account sync; a sync failure is caught and recorded as
the string "Error: " followed by the thrown message, and processing
continues with the next account.  The external-world oracles (fetch,
insertFault, gen) are indexed by account id. -/
def syncMultipleAccounts (db : DB) (accountIds : List String)
    (fetch : String → Except String (List CfWorker × String))
    (insertFault : String → Option String)
    (gen : String → Nat → String) (now : String) :
    DB × List (String × SyncValue) :=
  accountIds.foldl (syncStep fetch insertFault gen now) (db, [])

/-- The ORDER BY account_id, name key of getWorkers: lexicographic
comparison on (accountId, name). -/
def workerLe (a b : WorkerRecord) : Prop :=
  a.accountId < b.accountId ∨ (a.accountId = b.accountId ∧ a.name ≤ b.name)

instance : DecidableRel workerLe := fun a b => by
  unfold workerLe; infer_instance

instance : IsTotal WorkerRecord workerLe where
  total a b := by
    unfold workerLe
    rcases lt_trichotomy a.accountId b.accountId with h | h | h
    · exact Or.inl (Or.inl h)
    · rcases le_total a.name b.name with h2 | h2
      · exact Or.inl (Or.inr ⟨h, h2⟩)
      · exact Or.inr (Or.inr ⟨h.symm, h2⟩)
    · exact Or.inr (Or.inl h)

instance : IsTrans WorkerRecord workerLe where
  trans a b c hab hbc := by
    unfold workerLe at *
    rcases hab with h1 | ⟨e1, n1⟩
    · rcases hbc with h2 | ⟨e2, _⟩
      · exact Or.inl (h1.trans h2)
      · exact Or.inl (e2 ▸ h1)
    · rcases hbc with h2 | ⟨e2, n2⟩
      · exact Or.inl (e1 ▸ h2)
      · exact Or.inr ⟨e1.trans e2, n1.trans n2⟩

/-- getWorkers (lines 123-137 of WorkersService.ts): when a filter array
is supplied and non-empty, keep only rows whose account_id is in it
(WHERE account_id IN (...)); an absent filter, and also an empty filter
array (the accountIds.length > 0 guard at line 127), select all rows;
the result is ordered by (account_id, name) ascending. -/
def getWorkers (db : DB) (accountIds : Option (List String)) :
    List WorkerRecord :=
  (match accountIds with
    | some ids =>
        if ids.length > 0 then
          db.workers.filter (fun w : WorkerRecord => ids.contains w.accountId)
        else db.workers
    | none => db.workers).insertionSort workerLe

/-- Message thrown by updateWorkerScript when the local mirror has no row
for (name, accountId) (line 160). -/
def workerLocalMissMsg (workerName accountId : String) : String :=
  "Worker " ++ workerName ++ " not found in account " ++ accountId

/-- Message thrown by updateWorkerScript when the provider no longer
lists the worker (line 169). -/
def workerCfMissMsg (workerName : String) : String :=
  "Worker " ++ workerName ++ " not found in Cloudflare"

/-- Message thrown by deleteWorker when the local mirror has no row for
(name, accountId) (line 189). -/
def workerDbMissMsg (workerName : String) : String :=
  "Worker " ++ workerName ++ " not found in database"

/-- The single-row stamp performed by updateWorkerScript on success
(lines 175-176): UPDATE workers SET modified_on = CURRENT_TIMESTAMP,
last_synced = CURRENT_TIMESTAMP WHERE id = ?. -/
def stampWorkerRow (ws : List WorkerRecord) (rowId now : String) :
    List WorkerRecord :=
  ws.map (fun w =>
    if w.id = rowId then { w with modifiedOn := some now, lastSynced := now }
    else w)

/-- updateWorkerScript (lines 150-177 of WorkersService.ts).  listWorkers
is the outcome of the provider list call (line 165) and updateOutcome the
outcome of the provider script-update call (line 173); there is no
try/catch in this method, so provider failures propagate unwrapped.  On
success only the matching local row's modified_on and last_synced are
stamped to CURRENT_TIMESTAMP; nothing else in the store changes. -/
def updateWorkerScript (db : DB) (workerName accountId : String)
    (listWorkers : Except String (List CfWorker))
    (updateOutcome : Except String Unit) (now : String) :
    DB × Except String Unit :=
  match db.accounts.find? (fun a => a.id = accountId) with
  | none => (db, Except.error (accountNotFoundMsg accountId))
  | some _ =>
    match db.workers.find? (fun w => w.name = workerName ∧ w.accountId = accountId) with
    | none => (db, Except.error (workerLocalMissMsg workerName accountId))
    | some row =>
      match listWorkers with
      | Except.error msg => (db, Except.error msg)
      | Except.ok workers =>
        match workers.find? (fun w => w.id = workerName) with
        | none => (db, Except.error (workerCfMissMsg workerName))
        | some _ =>
          match updateOutcome with
          | Except.error msg => (db, Except.error msg)
          | Except.ok _ =>
              ({ db with workers := stampWorkerRow db.workers row.id now },
               Except.ok ())

/-- Outcome of deleteWorker: the new database, whether a remote delete
call was issued, and the result. -/
structure DeleteOutcome where
  db : DB
  remoteIssued : Bool
  result : Except String Unit
deriving DecidableEq, Repr

/-- deleteWorker (lines 179-203 of WorkersService.ts).  listWorkers is
the outcome of the provider list call (line 195) and remoteDelete the
outcome of the provider delete call (line 199), which is only consulted
when the provider still lists the worker; the local DELETE at line 202
runs afterwards in every non-throwing path. -/
def deleteWorker (db : DB) (workerName accountId : String)
    (listWorkers : Except String (List CfWorker))
    (remoteDelete : Except String Unit) : DeleteOutcome :=
  match db.accounts.find? (fun a => a.id = accountId) with
  | none => ⟨db, false, Except.error (accountNotFoundMsg accountId)⟩
  | some _ =>
    match db.workers.find? (fun w => w.name = workerName ∧ w.accountId = accountId) with
    | none => ⟨db, false, Except.error (workerDbMissMsg workerName)⟩
    | some row =>
      match listWorkers with
      | Except.error msg => ⟨db, false, Except.error msg⟩
      | Except.ok workers =>
        match workers.find? (fun w => w.id = workerName) with
        | some _ =>
          match remoteDelete with
          | Except.error msg => ⟨db, true, Except.error msg⟩
          | Except.ok _ =>
              ⟨{ db with workers := db.workers.filter (fun w => ¬ w.id = row.id) },
               true, Except.ok ()⟩
        | none =>
            ⟨{ db with workers := db.workers.filter (fun w => ¬ w.id = row.id) },
             false, Except.ok ()⟩

/-! Concrete fixtures used by counterexamples and witnesses. -/

/-- A minimal account row with the given id and token credentials. -/
def mkAccount (aid : String) : Account :=
  { id := aid
    name := aid
    authType := "token"
    accountId := "cf-" ++ aid
    apiToken := some "tok"
    authEmail := none
    authKey := none
    subdomain := some "old"
    status := "active"
    lastCheck := none
    lastError := none
    createdAt := "t0"
    updatedAt := "t0" }

/-- A worker mirror row with the given id, account and name. -/
def mkWorkerRow (rid aid nm : String) : WorkerRecord :=
  { id := rid
    accountId := aid
    name := nm
    subdomain := some "old"
    url := some (workerUrl nm "old")
    scriptHash := some "h0"
    createdOn := none
    modifiedOn := none
    lastSynced := "t0" }

/-- A provider worker with the given id. -/
def mkCfWorker (wid : String) : CfWorker :=
  { id := wid, etag := some ("e-" ++ wid), created_on := none, modified_on := none }

/-- An id generator for concrete runs. -/
def gen0 : Nat → String := fun i => "uuid-" ++ toString i

/-- A database with one account A owning one already-synced worker row. -/
def dbOneRow : DB :=
  { accounts := [mkAccount "A"], workers := [mkWorkerRow "r0" "A" "old-worker"] }

/-- Provider oracle for the batch-sync example: account A has three
workers; account B is never reached because its row lookup fails. -/
def exFetch : String → Except String (List CfWorker × String) := fun aid =>
  if aid = "A" then
    Except.ok ([mkCfWorker "w1", mkCfWorker "w2", mkCfWorker "w3"], "subA")
  else Except.error "unused"

/-- No insert fault in the batch-sync example. -/
def exFault : String → Option String := fun _ => none

/-- Id generator for the batch-sync example. -/
def exGen : String → Nat → String := fun aid i => aid ++ "-" ++ toString i

/-- Database for the batch-sync example: account A exists, B does not. -/
def exDb : DB := { accounts := [mkAccount "A"], workers := [] }

/-- Every error value in the result map carries the Error-colon prefix. -/
def errShape (m : List (String × SyncValue)) : Prop :=
  ∀ p ∈ m, ∀ s : String, p.2 = Sum.inr s → ∃ t, s = "Error: " ++ t

/-! Helper lemmas about the insert loop and the per-account delete. -/

theorem insertedRows_length (aid sub : String) (gen : Nat → String) (now : String) :
    ∀ (i : Nat) (ws : List CfWorker),
      (insertedRows aid sub gen now i ws).length = ws.length
  | _, [] => rfl
  | i, _ :: ws => by
      simp [insertedRows, insertedRows_length aid sub gen now (i + 1) ws]

theorem insertedRows_map_name (aid sub : String) (gen : Nat → String) (now : String) :
    ∀ (i : Nat) (ws : List CfWorker),
      (insertedRows aid sub gen now i ws).map (fun w => w.name)
        = ws.map (fun c => c.id)
  | _, [] => rfl
  | i, _ :: ws => by
      simp [insertedRows, insertedRow,
        insertedRows_map_name aid sub gen now (i + 1) ws]

theorem insertedRows_map_name_url (aid sub : String) (gen : Nat → String) (now : String) :
    ∀ (i : Nat) (ws : List CfWorker),
      (insertedRows aid sub gen now i ws).map (fun w => (w.name, w.url))
        = ws.map (fun c => (c.id, some (workerUrl c.id sub)))
  | _, [] => rfl
  | i, _ :: ws => by
      simp [insertedRows, insertedRow,
        insertedRows_map_name_url aid sub gen now (i + 1) ws]

theorem insertedRows_accountId (aid sub : String) (gen : Nat → String) (now : String) :
    ∀ (i : Nat) (ws : List CfWorker) (w : WorkerRecord),
      w ∈ insertedRows aid sub gen now i ws → w.accountId = aid
  | i, c :: ws, w, h => by
      rcases List.mem_cons.mp h with h1 | h1
      · rw [h1]; rfl
      · exact insertedRows_accountId aid sub gen now (i + 1) ws w h1

theorem insertedRows_filter_self (aid sub : String) (gen : Nat → String)
    (now : String) (i : Nat) (ws : List CfWorker) :
    (insertedRows aid sub gen now i ws).filter (fun w => w.accountId = aid)
      = insertedRows aid sub gen now i ws := by
  apply List.filter_eq_self.mpr
  intro w hw
  simpa using insertedRows_accountId aid sub gen now i ws w hw

theorem insertedRows_filter_other (aid sub : String) (gen : Nat → String)
    (now : String) (i : Nat) (ws : List CfWorker) :
    (insertedRows aid sub gen now i ws).filter (fun w => ¬ w.accountId = aid)
      = [] := by
  apply List.filter_eq_nil_iff.mpr
  intro w hw
  simpa using insertedRows_accountId aid sub gen now i ws w hw

theorem deleteAccountWorkers_filter_self (ws : List WorkerRecord) (aid : String) :
    (deleteAccountWorkers ws aid).filter (fun w => w.accountId = aid) = [] := by
  apply List.filter_eq_nil_iff.mpr
  intro w hw
  have := List.of_mem_filter (p := fun w : WorkerRecord => ¬ w.accountId = aid) hw
  simpa using this

theorem deleteAccountWorkers_filter_other (ws : List WorkerRecord) (aid : String) :
    (deleteAccountWorkers ws aid).filter (fun w => ¬ w.accountId = aid)
      = ws.filter (fun w => ¬ w.accountId = aid) := by
  unfold deleteAccountWorkers
  induction ws with
  | nil => rfl
  | cons w t ih =>
      by_cases h : w.accountId = aid <;> simp [h, ih]

/-! Helper lemmas characterising the paths of syncAccountWorkers. -/

theorem sync_success_workers (db : DB) (aid : String) (ws : List CfWorker)
    (sub : String) (gen : Nat → String) (now : String) (acc : Account)
    (hacc : db.accounts.find? (fun a => a.id = aid) = some acc) :
    (syncAccountWorkers db aid (Except.ok (ws, sub)) none gen now).1.workers
      = deleteAccountWorkers db.workers aid ++ insertedRows aid sub gen now 0 ws := by
  unfold syncAccountWorkers
  rw [hacc]
  by_cases h : ws.length = 0
  · rw [List.length_eq_zero] at h
    subst h
    simp [insertedRows]
  · simp [h]

theorem sync_success_result (db : DB) (aid : String) (ws : List CfWorker)
    (sub : String) (gen : Nat → String) (now : String) (acc : Account)
    (hacc : db.accounts.find? (fun a => a.id = aid) = some acc) :
    (syncAccountWorkers db aid (Except.ok (ws, sub)) none gen now).2
      = Except.ok ws.length := by
  unfold syncAccountWorkers
  rw [hacc]
  by_cases h : ws.length = 0
  · simp [h]
  · simp [h]

theorem sync_success_accounts (db : DB) (aid : String) (ws : List CfWorker)
    (sub : String) (gen : Nat → String) (now : String) (acc : Account)
    (hacc : db.accounts.find? (fun a => a.id = aid) = some acc) :
    (syncAccountWorkers db aid (Except.ok (ws, sub)) none gen now).1.accounts
      = if ws.length = 0 then db.accounts
        else updateAccountSync db.accounts aid sub now := by
  unfold syncAccountWorkers
  rw [hacc]
  by_cases h : ws.length = 0
  · simp [h]
  · simp [h]

theorem sync_fault (db : DB) (aid : String) (ws : List CfWorker)
    (sub msg : String) (gen : Nat → String) (now : String) (acc : Account)
    (hacc : db.accounts.find? (fun a => a.id = aid) = some acc)
    (hne : ws ≠ []) :
    syncAccountWorkers db aid (Except.ok (ws, sub)) (some msg) gen now
      = ({ db with workers := deleteAccountWorkers db.workers aid },
         Except.error (syncFailMsg aid msg)) := by
  unfold syncAccountWorkers
  rw [hacc]
  have h : ¬ ws.length = 0 := by
    simpa [List.length_eq_zero] using hne
  simp [h]

theorem find?_updateAccountSync (accounts : List Account) (aid sub now : String)
    (acc : Account)
    (hacc : accounts.find? (fun a => a.id = aid) = some acc) :
    (updateAccountSync accounts aid sub now).find? (fun a => a.id = aid)
      = some { acc with subdomain := some sub, lastCheck := some now } := by
  unfold updateAccountSync
  induction accounts with
  | nil => simp at hacc
  | cons a t ih =>
      by_cases h : a.id = aid
      · rw [List.find?_cons_of_pos _ (by simpa using h)] at hacc
        injection hacc with hacc
        subst hacc
        simp [h, List.find?_cons_of_pos]
      · rw [List.find?_cons_of_neg _ (by simpa using h)] at hacc
        simp [h, List.find?_cons_of_neg, ih hacc]

theorem sync_success_filter_self (db : DB) (aid : String) (ws : List CfWorker)
    (sub : String) (gen : Nat → String) (now : String) (acc : Account)
    (hacc : db.accounts.find? (fun a => a.id = aid) = some acc) :
    (syncAccountWorkers db aid (Except.ok (ws, sub)) none gen now).1.workers.filter
        (fun w => w.accountId = aid) = insertedRows aid sub gen now 0 ws := by
  rw [sync_success_workers db aid ws sub gen now acc hacc, List.filter_append,
    deleteAccountWorkers_filter_self, insertedRows_filter_self, List.nil_append]

theorem sync_success_find_account (db : DB) (aid : String) (ws : List CfWorker)
    (sub : String) (gen : Nat → String) (now : String) (acc : Account)
    (hacc : db.accounts.find? (fun a => a.id = aid) = some acc) :
    ∃ acc2,
      (syncAccountWorkers db aid (Except.ok (ws, sub)) none gen now).1.accounts.find?
          (fun a => a.id = aid) = some acc2 := by
  rw [sync_success_accounts db aid ws sub gen now acc hacc]
  by_cases h : ws.length = 0
  · exact ⟨acc, by simp [h, hacc]⟩
  · exact ⟨{ acc with subdomain := some sub, lastCheck := some now },
      by simp [h, find?_updateAccountSync db.accounts aid sub now acc hacc]⟩

/-! Claim theorems. -/

/-- C10: syncAccountWorkers on an account id absent from the accounts
table fails with the account-not-found error and performs no mutation of
either the workers table or the accounts table (the whole database is
returned unchanged), for every provider outcome and fault pattern. -/
theorem sync_unknown_account_spec (db : DB) (aid : String)
    (fetch : Except String (List CfWorker × String)) (fault : Option String)
    (gen : Nat → String) (now : String)
    (h : db.accounts.find? (fun a => a.id = aid) = none) :
    syncAccountWorkers db aid fetch fault gen now
      = (db, Except.error (accountNotFoundMsg aid)) := by
  unfold syncAccountWorkers
  rw [h]

/-- Witness for C10 at a concrete database without account B. -/
theorem sync_unknown_account_witness :
    syncAccountWorkers dbOneRow "B" (Except.ok ([], "s")) none gen0 "t1"
      = (dbOneRow, Except.error (accountNotFoundMsg "B")) :=
  sync_unknown_account_spec dbOneRow "B" (Except.ok ([], "s")) none gen0 "t1"
    (by decide)

/-- C2: for every stored account and provider response (of any length,
zero included), a successful syncAccountWorkers returns the count of
fetched workers, leaves the account's local worker rows exactly mirroring
the response (matched by name, no leftovers from before the sync), and
leaves every other account's rows untouched. -/
theorem sync_mirror_spec (db : DB) (aid : String) (ws : List CfWorker)
    (sub : String) (gen : Nat → String) (now : String) (acc : Account)
    (hacc : db.accounts.find? (fun a => a.id = aid) = some acc) :
    (syncAccountWorkers db aid (Except.ok (ws, sub)) none gen now).2
        = Except.ok ws.length
    ∧ ((syncAccountWorkers db aid (Except.ok (ws, sub)) none gen now).1.workers.filter
          (fun w => w.accountId = aid)).map (fun w => w.name)
        = ws.map (fun c => c.id)
    ∧ (syncAccountWorkers db aid (Except.ok (ws, sub)) none gen now).1.workers.filter
          (fun w => ¬ w.accountId = aid)
        = db.workers.filter (fun w => ¬ w.accountId = aid) := by
  refine ⟨sync_success_result db aid ws sub gen now acc hacc, ?_, ?_⟩
  · rw [sync_success_filter_self db aid ws sub gen now acc hacc,
      insertedRows_map_name]
  · rw [sync_success_workers db aid ws sub gen now acc hacc, List.filter_append,
      deleteAccountWorkers_filter_other, insertedRows_filter_other,
      List.append_nil]

/-- Witness for C2 at a concrete one-account database and a one-worker
provider response. -/
theorem sync_mirror_witness :
    ((syncAccountWorkers dbOneRow "A" (Except.ok ([mkCfWorker "w1"], "sub")) none gen0
          "t1").1.workers.filter (fun w => w.accountId = "A")).map (fun w => w.name)
      = [mkCfWorker "w1"].map (fun c => c.id) :=
  (sync_mirror_spec dbOneRow "A" [mkCfWorker "w1"] "sub" gen0 "t1" (mkAccount "A")
    (by decide)).2.1

/-- C1 counterexample: at a concrete stored account with one committed
worker row, a failure injected during the insertion step makes
syncAccountWorkers raise the wrapped error, yet the account's previously
committed rows do NOT remain unchanged: the workers table comes back
empty because the delete statement ran outside the insert transaction. -/
theorem sync_transaction_cex :
    (syncAccountWorkers dbOneRow "A" (Except.ok ([mkCfWorker "w1"], "sub"))
        (some "boom") gen0 "t1").2 = Except.error (syncFailMsg "A" "boom")
    ∧ (syncAccountWorkers dbOneRow "A" (Except.ok ([mkCfWorker "w1"], "sub"))
        (some "boom") gen0 "t1").1.workers = []
    ∧ dbOneRow.workers ≠ [] := by decide

/-- C1 as amended: only the insert loop is transactional; the per-account
delete commits separately beforehand.  For every stored account and
non-empty fetched list, a failure during the insertion step leaves the
account with zero worker rows (its prior rows are gone, the inserts are
rolled back), leaves other accounts' rows and the accounts table
untouched, and surfaces the wrapped error. -/
theorem sync_insert_fault_spec (db : DB) (aid : String) (ws : List CfWorker)
    (sub msg : String) (gen : Nat → String) (now : String) (acc : Account)
    (hacc : db.accounts.find? (fun a => a.id = aid) = some acc)
    (hne : ws ≠ []) :
    (syncAccountWorkers db aid (Except.ok (ws, sub)) (some msg) gen now).2
        = Except.error (syncFailMsg aid msg)
    ∧ (syncAccountWorkers db aid (Except.ok (ws, sub)) (some msg) gen now).1.workers.filter
          (fun w => w.accountId = aid) = []
    ∧ (syncAccountWorkers db aid (Except.ok (ws, sub)) (some msg) gen now).1.workers.filter
          (fun w => ¬ w.accountId = aid)
        = db.workers.filter (fun w => ¬ w.accountId = aid)
    ∧ (syncAccountWorkers db aid (Except.ok (ws, sub)) (some msg) gen now).1.accounts
        = db.accounts := by
  rw [sync_fault db aid ws sub msg gen now acc hacc hne]
  exact ⟨rfl, deleteAccountWorkers_filter_self db.workers aid,
    deleteAccountWorkers_filter_other db.workers aid, rfl⟩

/-- Witness for the amended C1 at a concrete input. -/
theorem sync_insert_fault_witness :
    (syncAccountWorkers dbOneRow "A" (Except.ok ([mkCfWorker "w1"], "sub"))
        (some "boom") gen0 "t1").1.workers.filter (fun w => w.accountId = "A")
      = [] :=
  (sync_insert_fault_spec dbOneRow "A" [mkCfWorker "w1"] "sub" "boom" gen0 "t1"
    (mkAccount "A") (by decide) (by decide)).2.1

/-- C3 counterexample: a successful zero-worker sync returns ok 0, yet the
stored account row keeps its stale subdomain and null lastCheck — the
early return on an empty fetched list skips the account update. -/
theorem sync_zero_account_update_cex :
    (syncAccountWorkers dbOneRow "A" (Except.ok ([], "new")) none gen0 "t1").2
        = Except.ok 0
    ∧ (syncAccountWorkers dbOneRow "A" (Except.ok ([], "new")) none gen0
        "t1").1.accounts = [mkAccount "A"]
    ∧ (mkAccount "A").subdomain ≠ some "new"
    ∧ (mkAccount "A").lastCheck ≠ some "t1" := by decide

/-- C3 as amended: after a successful syncAccountWorkers that fetched at
least one worker, the owning account's subdomain and lastCheck are
updated to the fetched subdomain and the current time; a run that synced
zero workers returns before the account update and leaves the account row
unchanged. -/
theorem sync_account_update_spec (db : DB) (aid : String) (ws : List CfWorker)
    (sub : String) (gen : Nat → String) (now : String) (acc : Account)
    (hacc : db.accounts.find? (fun a => a.id = aid) = some acc)
    (hne : ws ≠ []) :
    (syncAccountWorkers db aid (Except.ok (ws, sub)) none gen now).1.accounts.find?
        (fun a => a.id = aid)
      = some { acc with subdomain := some sub, lastCheck := some now }
    ∧ (syncAccountWorkers db aid (Except.ok ([], sub)) none gen now).1.accounts
        = db.accounts := by
  constructor
  · rw [sync_success_accounts db aid ws sub gen now acc hacc]
    have h : ¬ ws.length = 0 := by
      simpa [List.length_eq_zero] using hne
    rw [if_neg h]
    exact find?_updateAccountSync db.accounts aid sub now acc hacc
  · rw [sync_success_accounts db aid [] sub gen now acc hacc]
    simp

/-- Witness for the amended C3 at a concrete input. -/
theorem sync_account_update_witness :
    (syncAccountWorkers dbOneRow "A" (Except.ok ([mkCfWorker "w1"], "sub")) none gen0
        "t1").1.accounts.find? (fun a => a.id = "A")
      = some { mkAccount "A" with subdomain := some "sub", lastCheck := some "t1" } :=
  (sync_account_update_spec dbOneRow "A" [mkCfWorker "w1"] "sub" gen0 "t1"
    (mkAccount "A") (by decide) (by decide)).1

/-- C6: re-sync is idempotent.  For every stored account, running
syncAccountWorkers twice in a row against the same provider response
(same worker list and same subdomain) leaves the account's mirrored row
count and its sequence of (name, url) pairs identical between the two
runs, whatever fresh ids and timestamps the second run draws. -/
theorem sync_resync_idempotent (db : DB) (aid : String) (ws : List CfWorker)
    (sub : String) (gen1 gen2 : Nat → String) (now1 now2 : String) (acc : Account)
    (hacc : db.accounts.find? (fun a => a.id = aid) = some acc) :
    ((syncAccountWorkers (syncAccountWorkers db aid (Except.ok (ws, sub)) none gen1
          now1).1 aid (Except.ok (ws, sub)) none gen2 now2).1.workers.filter
        (fun w => w.accountId = aid)).length
      = ((syncAccountWorkers db aid (Except.ok (ws, sub)) none gen1
          now1).1.workers.filter (fun w => w.accountId = aid)).length
    ∧ ((syncAccountWorkers (syncAccountWorkers db aid (Except.ok (ws, sub)) none gen1
          now1).1 aid (Except.ok (ws, sub)) none gen2 now2).1.workers.filter
        (fun w => w.accountId = aid)).map (fun w => (w.name, w.url))
      = ((syncAccountWorkers db aid (Except.ok (ws, sub)) none gen1
          now1).1.workers.filter (fun w => w.accountId = aid)).map
          (fun w => (w.name, w.url)) := by
  obtain ⟨acc2, hacc2⟩ :=
    sync_success_find_account db aid ws sub gen1 now1 acc hacc
  rw [sync_success_filter_self _ aid ws sub gen2 now2 acc2 hacc2,
    sync_success_filter_self db aid ws sub gen1 now1 acc hacc,
    insertedRows_length, insertedRows_length,
    insertedRows_map_name_url, insertedRows_map_name_url]
  exact ⟨rfl, rfl⟩

/-- C4 counterexample: with an explicitly supplied empty filter list,
getWorkers returns every row instead of the rows whose accountId lies in
the (empty) given set — the length > 0 guard treats an empty filter array
like no filter at all. -/
theorem getWorkers_empty_filter_cex :
    getWorkers dbOneRow (some []) = [mkWorkerRow "r0" "A" "old-worker"]
    ∧ getWorkers dbOneRow (some [])
        ≠ dbOneRow.workers.filter
            (fun w : WorkerRecord => ([] : List String).contains w.accountId) := by
  decide

/-- C4 as amended: with no filter getWorkers returns all rows; with a
NON-EMPTY filter list it returns exactly the rows whose accountId is in
the given set; an empty filter list is treated like no filter and returns
all rows; every result is ordered by (accountId, name) ascending; and
filtering by an accountId owning no rows yields the empty sequence. -/
theorem getWorkers_spec (db : DB) (ids : List String) :
    (getWorkers db none).Perm db.workers
    ∧ List.Sorted workerLe (getWorkers db none)
    ∧ (ids ≠ [] →
        (getWorkers db (some ids)).Perm
            (db.workers.filter
              (fun w : WorkerRecord => ids.contains w.accountId))
          ∧ List.Sorted workerLe (getWorkers db (some ids)))
    ∧ getWorkers db (some []) = getWorkers db none
    ∧ (∀ aid : String, (∀ w ∈ db.workers, ¬ w.accountId = aid) →
        getWorkers db (some [aid]) = []) := by
  refine ⟨List.perm_insertionSort workerLe db.workers,
    List.sorted_insertionSort workerLe db.workers, ?_, rfl, ?_⟩
  · intro hne
    have hlen : ids.length > 0 := List.length_pos.mpr hne
    unfold getWorkers
    dsimp only
    rw [if_pos hlen]
    exact ⟨List.perm_insertionSort workerLe _,
      List.sorted_insertionSort workerLe _⟩
  · intro aid h
    unfold getWorkers
    dsimp only
    rw [if_pos (show 0 < ([aid] : List String).length from Nat.one_pos)]
    have hfil : db.workers.filter
        (fun w : WorkerRecord => ([aid] : List String).contains w.accountId) = [] := by
      apply List.filter_eq_nil_iff.mpr
      intro w hw
      simpa using h w hw
    rw [hfil]
    rfl

/-! Lemmas about the result map of syncMultipleAccounts. -/

theorem find?_map_overwrite (m : List (String × SyncValue)) (k : String)
    (v : SyncValue) (h : m.any (fun p => p.1 = k) = true) :
    (m.map (fun p => if p.1 = k then (k, v) else p)).find? (fun p => p.1 = k)
      = some (k, v) := by
  induction m with
  | nil => simp at h
  | cons p t ih =>
      by_cases hp : p.1 = k
      · simp [hp]
      · have ht : t.any (fun p => p.1 = k) = true := by
          simpa [List.any_cons, hp] using h
        simp [hp, ih ht]

theorem find?_append_one (m : List (String × SyncValue)) (k : String)
    (v : SyncValue) (h : m.any (fun p => p.1 = k) = false) :
    (m ++ [(k, v)]).find? (fun p => p.1 = k) = some (k, v) := by
  induction m with
  | nil => simp
  | cons p t ih =>
      rw [List.any_cons, Bool.or_eq_false_iff] at h
      have hp : ¬ p.1 = k := by simpa using h.1
      simp [hp, ih h.2]

theorem lookupAssoc_setAssoc_self (m : List (String × SyncValue)) (k : String)
    (v : SyncValue) : lookupAssoc (setAssoc m k v) k = some v := by
  unfold setAssoc lookupAssoc
  by_cases hany : m.any (fun p => p.1 = k) = true
  · rw [if_pos hany, find?_map_overwrite m k v hany]
    rfl
  · have hf : m.any (fun p => p.1 = k) = false := by
      cases hb : m.any (fun p => p.1 = k)
      · rfl
      · exact absurd hb hany
    rw [if_neg hany, find?_append_one m k v hf]
    rfl

theorem find?_map_overwrite_other (m : List (String × SyncValue))
    (k k' : String) (v : SyncValue) (hne : ¬ k' = k) :
    (m.map (fun p => if p.1 = k then (k, v) else p)).find? (fun p => p.1 = k')
      = m.find? (fun p => p.1 = k') := by
  have hkk' : ¬ k = k' := fun hc => hne hc.symm
  induction m with
  | nil => rfl
  | cons p t ih =>
      simp only [List.map_cons]
      by_cases hp : p.1 = k
      · have hp' : ¬ p.1 = k' := by
          rw [hp]
          exact hkk'
        rw [if_pos hp, List.find?_cons_of_neg _ (by simpa using hkk'),
          List.find?_cons_of_neg _ (by simpa using hp'), ih]
      · by_cases hq : p.1 = k'
        · rw [if_neg hp, List.find?_cons_of_pos _ (by simpa using hq),
            List.find?_cons_of_pos _ (by simpa using hq)]
        · rw [if_neg hp, List.find?_cons_of_neg _ (by simpa using hq),
            List.find?_cons_of_neg _ (by simpa using hq), ih]

theorem lookupAssoc_setAssoc_other (m : List (String × SyncValue))
    (k k' : String) (v : SyncValue) (hne : ¬ k' = k) :
    lookupAssoc (setAssoc m k v) k' = lookupAssoc m k' := by
  have hkk' : ¬ k = k' := fun hc => hne hc.symm
  unfold setAssoc lookupAssoc
  by_cases hany : m.any (fun p => p.1 = k) = true
  · rw [if_pos hany, find?_map_overwrite_other m k k' v hne]
  · rw [if_neg hany, List.find?_append]
    have hone : ([(k, v)] : List (String × SyncValue)).find? (fun p => p.1 = k')
        = none := by
      simp [hkk']
    rw [hone]
    cases m.find? (fun p => (p.1 = k' : Bool)) <;> rfl

theorem foldl_syncStep_isSome
    (fetch : String → Except String (List CfWorker × String))
    (fault : String → Option String) (gen : String → Nat → String)
    (now : String) :
    ∀ (ids : List String) (st : DB × List (String × SyncValue)) (aid : String),
      (lookupAssoc st.2 aid).isSome = true →
      (lookupAssoc (ids.foldl (syncStep fetch fault gen now) st).2 aid).isSome
        = true
  | [], _, _, h => h
  | x :: ids, st, aid, h => by
      rw [List.foldl_cons]
      apply foldl_syncStep_isSome fetch fault gen now ids _ aid
      by_cases hx : aid = x
      · subst hx
        rw [show (syncStep fetch fault gen now st aid).2
            = setAssoc st.2 aid (recordedValue (syncAccountWorkers st.1 aid
                (fetch aid) (fault aid) (gen aid) now).2) from rfl,
          lookupAssoc_setAssoc_self]
        rfl
      · rw [show (syncStep fetch fault gen now st x).2
            = setAssoc st.2 x (recordedValue (syncAccountWorkers st.1 x
                (fetch x) (fault x) (gen x) now).2) from rfl,
          lookupAssoc_setAssoc_other st.2 x aid _ hx]
        exact h

theorem foldl_syncStep_mem_isSome
    (fetch : String → Except String (List CfWorker × String))
    (fault : String → Option String) (gen : String → Nat → String)
    (now : String) :
    ∀ (ids : List String) (st : DB × List (String × SyncValue)) (aid : String),
      aid ∈ ids →
      (lookupAssoc (ids.foldl (syncStep fetch fault gen now) st).2 aid).isSome
        = true
  | [], _, _, h => absurd h (List.not_mem_nil _)
  | x :: ids, st, aid, h => by
      rw [List.foldl_cons]
      rcases List.mem_cons.mp h with rfl | hm
      · apply foldl_syncStep_isSome fetch fault gen now ids _ aid
        rw [show (syncStep fetch fault gen now st aid).2
            = setAssoc st.2 aid (recordedValue (syncAccountWorkers st.1 aid
                (fetch aid) (fault aid) (gen aid) now).2) from rfl,
          lookupAssoc_setAssoc_self]
        rfl
      · exact foldl_syncStep_mem_isSome fetch fault gen now ids _ aid hm

theorem mem_setAssoc (m : List (String × SyncValue)) (k : String)
    (v : SyncValue) (p : String × SyncValue) (hp : p ∈ setAssoc m k v) :
    p = (k, v) ∨ p ∈ m := by
  unfold setAssoc at hp
  by_cases hany : m.any (fun p => p.1 = k) = true
  · rw [if_pos hany] at hp
    rcases List.mem_map.mp hp with ⟨q, hq, rfl⟩
    by_cases h : q.1 = k
    · left
      simp [h]
    · right
      simpa [h] using hq
  · rw [if_neg hany] at hp
    rcases List.mem_append.mp hp with h | h
    · right
      exact h
    · left
      simpa using h

theorem recordedValue_inr (r : Except String Nat) (s : String)
    (h : recordedValue r = Sum.inr s) : ∃ t, s = "Error: " ++ t := by
  cases r with
  | ok c => exact absurd h (by simp [recordedValue])
  | error m =>
      refine ⟨m, ?_⟩
      have := (Sum.inr.injEq _ _).mp h.symm
      exact this

theorem errShape_foldl
    (fetch : String → Except String (List CfWorker × String))
    (fault : String → Option String) (gen : String → Nat → String)
    (now : String) :
    ∀ (ids : List String) (st : DB × List (String × SyncValue)),
      errShape st.2 → errShape (ids.foldl (syncStep fetch fault gen now) st).2
  | [], _, h => h
  | x :: ids, st, h => by
      rw [List.foldl_cons]
      apply errShape_foldl fetch fault gen now ids
      intro p hp s hs
      rcases mem_setAssoc st.2 x (recordedValue (syncAccountWorkers st.1 x
          (fetch x) (fault x) (gen x) now).2) p hp with h1 | h1
      · subst h1
        exact recordedValue_inr _ s hs
      · exact h p h1 s hs

/-- C5: syncMultipleAccounts processes the requested accounts strictly
sequentially (a left fold threading the database), catches each
per-account failure and records it under that account's key as a string
beginning with the Error-colon prefix, never aborts later accounts, and
ends with every requested id present as a key mapped to a count or an
error string.  The last two conjuncts pin the spec's concrete example in
both orders: with account A holding three workers and account B absent
from the store, the failed lookup of B is recorded as the exact string
Error: Account B not found while A still syncs to 3, whichever of the two
is processed first. -/
theorem syncMultipleAccounts_spec :
    (∀ (db : DB) (ids : List String)
        (fetch : String → Except String (List CfWorker × String))
        (fault : String → Option String) (gen : String → Nat → String)
        (now aid : String), aid ∈ ids →
        (lookupAssoc (syncMultipleAccounts db ids fetch fault gen now).2
            aid).isSome = true)
    ∧ (∀ (db : DB) (ids : List String)
        (fetch : String → Except String (List CfWorker × String))
        (fault : String → Option String) (gen : String → Nat → String)
        (now aid s : String),
        lookupAssoc (syncMultipleAccounts db ids fetch fault gen now).2 aid
            = some (Sum.inr s) → ∃ t, s = "Error: " ++ t)
    ∧ (syncMultipleAccounts exDb ["A", "B"] exFetch exFault exGen "t1").2
        = [("A", Sum.inl 3), ("B", Sum.inr "Error: Account B not found")]
    ∧ (syncMultipleAccounts exDb ["B", "A"] exFetch exFault exGen "t1").2
        = [("B", Sum.inr "Error: Account B not found"), ("A", Sum.inl 3)] := by
  refine ⟨?_, ?_, by decide, by decide⟩
  · intro db ids fetch fault gen now aid h
    exact foldl_syncStep_mem_isSome fetch fault gen now ids (db, []) aid h
  · intro db ids fetch fault gen now aid s hl
    have hshape : errShape (syncMultipleAccounts db ids fetch fault gen now).2 := by
      apply errShape_foldl fetch fault gen now ids (db, [])
      intro p hp
      exact absurd hp (List.not_mem_nil p)
    unfold lookupAssoc at hl
    rcases Option.map_eq_some'.mp hl with ⟨p, hfind, hp2⟩
    exact hshape p (List.mem_of_find?_eq_some hfind) s hp2

/-- Witness for C5: the key of the account whose lookup failed is present
in the result map of the concrete example. -/
theorem syncMultipleAccounts_spec_witness :
    (lookupAssoc (syncMultipleAccounts exDb ["A", "B"] exFetch exFault exGen
        "t1").2 "B").isSome = true :=
  syncMultipleAccounts_spec.1 exDb ["A", "B"] exFetch exFault exGen "t1" "B"
    (by decide)

theorem cfMiss_ne_localMiss (n a : String) :
    workerCfMissMsg n ≠ workerLocalMissMsg n a := by
  unfold workerCfMissMsg workerLocalMissMsg
  intro h
  have hd := congrArg String.data h
  simp only [String.data_append] at hd
  rw [List.append_assoc ("Worker ".data ++ n.data)] at hd
  have hd2 := List.append_cancel_left hd
  have hd3 := congrArg (List.take 15) hd2
  rw [List.take_append_of_le_length (by decide)] at hd3
  exact absurd hd3 (by decide)

/-- C7: when the account exists and a local mirror row exists, deleteWorker
issues the remote delete exactly when the provider still lists a worker
with that name (and skips the call otherwise), and in both cases deletes
the local row, leaves the accounts table alone, and completes without an
error. -/
theorem deleteWorker_spec (db : DB) (workerName accountId : String)
    (ws : List CfWorker) (acc : Account) (row : WorkerRecord)
    (hacc : db.accounts.find? (fun a => a.id = accountId) = some acc)
    (hrow : db.workers.find?
        (fun w => w.name = workerName ∧ w.accountId = accountId) = some row) :
    (deleteWorker db workerName accountId (Except.ok ws) (Except.ok ())).result
        = Except.ok ()
    ∧ (deleteWorker db workerName accountId (Except.ok ws) (Except.ok ())).remoteIssued
        = (ws.find? (fun w => w.id = workerName)).isSome
    ∧ (deleteWorker db workerName accountId (Except.ok ws) (Except.ok ())).db.workers
        = db.workers.filter (fun w => ¬ w.id = row.id)
    ∧ (deleteWorker db workerName accountId (Except.ok ws) (Except.ok ())).db.accounts
        = db.accounts := by
  unfold deleteWorker
  rw [hacc, hrow]
  cases hfind : ws.find? (fun w => w.id = workerName) <;> simp [hfind]

/-- Witness for C7: the provider no longer lists the worker, the call is
skipped, and the local row is still deleted without error. -/
theorem deleteWorker_spec_witness :
    (deleteWorker dbOneRow "old-worker" "A" (Except.ok []) (Except.ok ())).remoteIssued
      = (([] : List CfWorker).find? (fun w => w.id = "old-worker")).isSome :=
  (deleteWorker_spec dbOneRow "old-worker" "A" [] (mkAccount "A")
    (mkWorkerRow "r0" "A" "old-worker") (by decide) (by decide)).2.1

/-- C8: when the account and the local mirror row exist but the provider
no longer lists a worker with that name, updateWorkerScript fails with
the provider-side not-found error — a message distinct from the local-miss
message — and the database (in particular the local row) is unchanged,
whatever the outcome of the never-reached provider update call. -/
theorem updateWorkerScript_provider_miss_spec (db : DB)
    (workerName accountId : String) (ws : List CfWorker)
    (upd : Except String Unit) (now : String) (acc : Account) (row : WorkerRecord)
    (hacc : db.accounts.find? (fun a => a.id = accountId) = some acc)
    (hrow : db.workers.find?
        (fun w => w.name = workerName ∧ w.accountId = accountId) = some row)
    (hcf : ws.find? (fun w => w.id = workerName) = none) :
    updateWorkerScript db workerName accountId (Except.ok ws) upd now
        = (db, Except.error (workerCfMissMsg workerName))
    ∧ workerCfMissMsg workerName ≠ workerLocalMissMsg workerName accountId := by
  constructor
  · unfold updateWorkerScript
    rw [hacc, hrow]
    simp [hcf]
  · exact cfMiss_ne_localMiss workerName accountId

/-- Witness for C8: provider list is empty while the local row exists; the
call fails with the provider-side message and mutates nothing. -/
theorem updateWorkerScript_provider_miss_witness :
    updateWorkerScript dbOneRow "old-worker" "A" (Except.ok []) (Except.ok ()) "t2"
      = (dbOneRow, Except.error (workerCfMissMsg "old-worker")) :=
  (updateWorkerScript_provider_miss_spec dbOneRow "old-worker" "A" []
    (Except.ok ()) "t2" (mkAccount "A") (mkWorkerRow "r0" "A" "old-worker")
    (by decide) (by decide) (by decide)).1

theorem filter_id_eq_one (l : List WorkerRecord) (row : WorkerRecord)
    (hnd : (l.map (fun w => w.id)).Nodup) (hmem : row ∈ l) :
    (l.filter (fun w => w.id = row.id)).length = 1 := by
  induction l with
  | nil => simp at hmem
  | cons x t ih =>
      rw [List.map_cons, List.nodup_cons] at hnd
      rcases List.mem_cons.mp hmem with rfl | hm
      · have ht : t.filter (fun w => w.id = row.id) = [] := by
          apply List.filter_eq_nil_iff.mpr
          intro w hw
          simp only [decide_eq_true_eq]
          intro hc
          exact hnd.1 (hc ▸ List.mem_map_of_mem (fun w => w.id) hw)
        simp [List.filter_cons, ht]
      · by_cases hx : x.id = row.id
        · exfalso
          exact hnd.1 (hx ▸ List.mem_map_of_mem (fun w => w.id) hm)
        · simp [List.filter_cons, hx, ih hnd.2 hm]

/-- C9: on a successful updateWorkerScript, exactly one local row matches
the updated record's id; that row gets only its modifiedOn and lastSynced
fields set to the current time (every other field, scriptHash included,
is preserved by the record update), every other worker row is unchanged
at its position, the row count is unchanged, the accounts table is
unchanged, and the call returns success — no account-wide re-sync
happens. -/
theorem updateWorkerScript_frame_spec (db : DB) (workerName accountId : String)
    (ws : List CfWorker) (now : String) (acc : Account) (row : WorkerRecord)
    (cf : CfWorker)
    (hacc : db.accounts.find? (fun a => a.id = accountId) = some acc)
    (hrow : db.workers.find?
        (fun w => w.name = workerName ∧ w.accountId = accountId) = some row)
    (hcf : ws.find? (fun w => w.id = workerName) = some cf)
    (hnd : (db.workers.map (fun w => w.id)).Nodup) :
    (updateWorkerScript db workerName accountId (Except.ok ws) (Except.ok ()) now).2
        = Except.ok ()
    ∧ (updateWorkerScript db workerName accountId (Except.ok ws) (Except.ok ())
          now).1.accounts = db.accounts
    ∧ (updateWorkerScript db workerName accountId (Except.ok ws) (Except.ok ())
          now).1.workers.length = db.workers.length
    ∧ (db.workers.filter (fun w => w.id = row.id)).length = 1
    ∧ ∀ (i : Nat) (h1 : i < db.workers.length)
        (h2 : i < (updateWorkerScript db workerName accountId (Except.ok ws)
            (Except.ok ()) now).1.workers.length),
        (¬ (db.workers.get ⟨i, h1⟩).id = row.id →
          (updateWorkerScript db workerName accountId (Except.ok ws) (Except.ok ())
              now).1.workers.get ⟨i, h2⟩ = db.workers.get ⟨i, h1⟩)
        ∧ ((db.workers.get ⟨i, h1⟩).id = row.id →
          (updateWorkerScript db workerName accountId (Except.ok ws) (Except.ok ())
              now).1.workers.get ⟨i, h2⟩
            = { db.workers.get ⟨i, h1⟩ with
                  modifiedOn := some now, lastSynced := now }) := by
  have heq : updateWorkerScript db workerName accountId (Except.ok ws)
      (Except.ok ()) now
      = ({ db with workers := stampWorkerRow db.workers row.id now },
         Except.ok ()) := by
    unfold updateWorkerScript
    rw [hacc, hrow]
    simp [hcf]
  rw [heq]
  refine ⟨rfl, rfl, by simp [stampWorkerRow], ?_, ?_⟩
  · exact filter_id_eq_one db.workers row hnd (List.mem_of_find?_eq_some hrow)
  · intro i h1 h2
    simp only [List.get_eq_getElem, stampWorkerRow, List.getElem_map]
    constructor
    · intro hne
      rw [if_neg hne]
    · intro hid
      rw [if_pos hid]

/-- Witness for C9 at a concrete database: the single matching row is
stamped and nothing else changes. -/
theorem updateWorkerScript_frame_witness :
    (updateWorkerScript dbOneRow "old-worker" "A"
        (Except.ok [mkCfWorker "old-worker"]) (Except.ok ()) "t2").2
      = Except.ok () :=
  (updateWorkerScript_frame_spec dbOneRow "old-worker" "A"
    [mkCfWorker "old-worker"] "t2" (mkAccount "A")
    (mkWorkerRow "r0" "A" "old-worker") (mkCfWorker "old-worker")
    (by decide) (by decide) (by decide) (by decide)).1

/-- Witness for the amended C4: the non-empty-filter clause applied at a
concrete database and filter list. -/
theorem getWorkers_spec_witness :
    (getWorkers dbOneRow (some ["A"])).Perm
      (dbOneRow.workers.filter
        (fun w : WorkerRecord => (["A"] : List String).contains w.accountId)) :=
  ((getWorkers_spec dbOneRow ["A"]).2.2.1 (by decide)).1

/-- Witness for C6 at a concrete input with different generators and
timestamps across the two runs. -/
theorem sync_resync_idempotent_witness :
    ((syncAccountWorkers (syncAccountWorkers dbOneRow "A"
          (Except.ok ([mkCfWorker "w1"], "sub")) none gen0 "t1").1 "A"
          (Except.ok ([mkCfWorker "w1"], "sub")) none (fun i => "z-" ++ toString i)
          "t2").1.workers.filter (fun w => w.accountId = "A")).map
        (fun w => (w.name, w.url))
      = ((syncAccountWorkers dbOneRow "A" (Except.ok ([mkCfWorker "w1"], "sub")) none
          gen0 "t1").1.workers.filter (fun w => w.accountId = "A")).map
          (fun w => (w.name, w.url)) :=
  (sync_resync_idempotent dbOneRow "A" [mkCfWorker "w1"] "sub" gen0
    (fun i => "z-" ++ toString i) "t1" "t2" (mkAccount "A") (by decide)).2
